import Mathlib

/-!
Shallow embedding of the Salesforce-Analyser-Py rule-based analysis engine:
the naming-convention analyzer (src/models/naming_convention_analyzer.py),
the bypass-pattern analyzer (src/models/bypass_pattern_analyzer.py) and the
report synthesizer (src/utils/report_generator.py).

Modelling conventions:
- Python strings are lists of characters (Str); Python dicts with a fixed key
  set are structures whose fields are Option-valued to model absent keys.
- Python float arithmetic on the score paths is modelled by exact rational
  values: every rounded quantity in the source is of the form num/den for
  integers num, den, and pyRoundRatio num den implements the round-half-even
  semantics of the Python builtin round applied to that exact value.
- Python regular-expression search is modelled by an executable
  list-of-successes matcher; re.search finds a match iff a match exists at
  some start position, which is exactly the semantics of the combinators
  below.  Character classes are modelled over the character sets that are
  exercised by the analysed metadata (the ASCII ranges written in the
  patterns themselves; the Unicode-only extensions of the Python classes
  for word characters and IGNORECASE folding are restricted to ASCII).
- A method that can raise inside a loop is modelled as an Except-valued
  function; the surrounding analysis then short-circuits, returning no
  partial result, exactly as an uncaught Python exception would.
-/

namespace SalesforceAnalyser

abbrev Str := List Char

/-- Round-half-even (the semantics of the Python builtin round) of the exact
rational num/den, for den > 0, implemented with integer arithmetic so that it
evaluates by kernel reduction. -/
def pyRoundRatio (num den : Int) : Int :=
  let f : Int := num / den
  let r : Int := num % den
  if 2 * r < den then f
  else if den < 2 * r then f + 1
  else if f % 2 = 0 then f else f + 1

/-- Round-half-even of a rational number, the value Python round returns on
the exact value of the float expressions appearing in the source. -/
def pyRound (q : ℚ) : Int := pyRoundRatio q.num (q.den : Int)

/-- Python `a or b` for an optional string a: a missing key and the empty
string are both falsy and fall through to the alternative. -/
def pyOrStr (a : Option Str) (b : Str) : Str :=
  match a with
  | some s => if s.isEmpty then b else s
  | none => b

/-- Python substring membership `needle in hay`. -/
def isSubstr (needle : Str) : Str → Bool
  | [] => needle.isEmpty
  | c :: rest => needle.isPrefixOf (c :: rest) || isSubstr needle rest

/-- Character code-point range test. -/
def inRange (lo hi : Nat) (c : Char) : Bool :=
  decide (lo ≤ c.toNat) && decide (c.toNat ≤ hi)

/-- The Python regex class backslash-s (whitespace). -/
def isPySpace (c : Char) : Bool :=
  (inRange 9 13 c) || (inRange 28 32 c) || c.toNat == 133 || c.toNat == 160 ||
  c.toNat == 5760 || (inRange 8192 8202 c) || c.toNat == 8232 ||
  c.toNat == 8233 || c.toNat == 8239 || c.toNat == 8287 || c.toNat == 12288

/-- The Python regex class backslash-w (restricted to its ASCII part). -/
def isWordChar (c : Char) : Bool :=
  inRange 97 122 c || inRange 65 90 c || inRange 48 57 c || c == '_'

/-- The regex class of ASCII letters and digits. -/
def isAlnum (c : Char) : Bool :=
  inRange 97 122 c || inRange 65 90 c || inRange 48 57 c

/-- The regex class of a single or double quote. -/
def isQuote (c : Char) : Bool := c.toNat == 39 || c.toNat == 34

/-- The regex dot: any character except a newline. -/
def isDotChar (c : Char) : Bool := c != '\n'

/-- The regex class containing the equals sign and the exclamation mark. -/
def isEqBang (c : Char) : Bool := c == '=' || c == '!'

/-- The negated regex class excluding a closing parenthesis. -/
def isNotRParen (c : Char) : Bool := c != ')'

/-- Matcher for a literal: all suffixes left after consuming the literal. -/
def mLit (p : Str) (cs : Str) : List Str :=
  if p.isPrefixOf cs then [cs.drop p.length] else []

/-- Matcher for a single character from a class. -/
def mClass (f : Char → Bool) (cs : Str) : List Str :=
  match cs with
  | [] => []
  | c :: rest => if f c then [rest] else []

/-- Matcher for a single given character. -/
def mChar (c : Char) (cs : Str) : List Str := mClass (fun d => d == c) cs

/-- Matcher for zero or more characters of a class: every possible suffix. -/
def mStar (f : Char → Bool) : Str → List Str
  | [] => [[]]
  | c :: cs => (c :: cs) :: (if f c then mStar f cs else [])

/-- Matcher for one or more characters of a class. -/
def mPlus (f : Char → Bool) (cs : Str) : List Str :=
  match cs with
  | [] => []
  | c :: rest => if f c then mStar f rest else []

/-- Matcher for exactly n characters of a class. -/
def mCount (f : Char → Bool) : Nat → Str → List Str
  | 0, cs => [cs]
  | n + 1, cs =>
    match cs with
    | [] => []
    | c :: rest => if f c then mCount f n rest else []

/-- Matcher for between lo and hi characters of a class. -/
def mRep (f : Char → Bool) (lo hi : Nat) (cs : Str) : List Str :=
  (List.range (hi + 1 - lo)).flatMap (fun k => mCount f (lo + k) cs)

/-- Sequencing of matchers: thread every intermediate suffix. -/
def seqs : List (Str → List Str) → Str → List Str
  | [], cs => [cs]
  | m :: ms, cs => (m cs).flatMap (seqs ms)

/-- re.search of an alternation of sequenced matchers: a match exists at some
start position, which is how a backtracking search decides a match. -/
def searchAny (ms : List (Str → List Str)) (cs : Str) : Bool :=
  cs.tails.any (fun t => ms.any (fun m => !(m t).isEmpty))

def nlStr : Str := "\n".data

/-- A regex of the shape caret-literal-dollar: the whole string, allowing the
dollar to match just before one trailing newline, as in Python. -/
def anchoredEq (lit cs : Str) : Bool := cs == lit || cs == lit ++ nlStr

/-- The string ends with suf and the part before suf has no newline. -/
def endsNoNL (suf rest : Str) : Bool :=
  suf.isSuffixOf rest && !((rest.take (rest.length - suf.length)).contains '\n')

/-- A regex of the shape caret-pre-dotstar-suf-dollar. -/
def anchoredPSD (pre suf cs : Str) : Bool :=
  pre.isPrefixOf cs &&
    (endsNoNL suf (cs.drop pre.length) || endsNoNL (suf ++ nlStr) (cs.drop pre.length))

/-- A regex of the shape literal-dollar (searched anywhere, anchored at the
end, allowing one trailing newline). -/
def anchoredSuffix (suf cs : Str) : Bool :=
  suf.isSuffixOf cs || (suf ++ nlStr).isSuffixOf cs

/-- Python string strict comparison: lexicographic on code points. -/
def strLt : Str → Str → Bool
  | _, [] => false
  | [], _ :: _ => true
  | a :: as, b :: bs =>
    if a.toNat < b.toNat then true
    else if b.toNat < a.toNat then false
    else strLt as bs

/-- Python string comparison less-or-equal. -/
def strLe (x y : Str) : Bool := !(strLt y x)

inductive PyErr where
  | invalidInput : PyErr
  | indexError : PyErr
deriving DecidableEq

/-- The argument actually passed to an analyzer entry point: Python None, a
non-list object (truthy or falsy, both rejected by the validation), or a
list of records. -/
inductive PyInput (α : Type) where
  | none : PyInput α
  | notList : PyInput α
  | list : List α → PyInput α
deriving DecidableEq

/-! Naming-convention analyzer (src/models/naming_convention_analyzer.py). -/

/-- A catalog entry of the naming-convention rules: a compiled pattern (its
source text is kept because it is copied into violation records), a
description, and whether a match is expected or forbidden. -/
structure ConventionRule where
  patternText : Str
  regexMatch : Str → Bool
  description : Str
  expected : Bool

/-- The Loan-object structural pattern groups. -/
structure LoanConventions where
  standard_patterns : List (Str → Bool)
  custom_patterns : List (Str → Bool)
  invalid_patterns : List (Str → Bool)

/-- A violation record: either a catalog-rule mismatch (rule text, pattern
source and expected flag) or a structural Loan violation (rule text and an
explicit critical severity) - a variant union modelled with optional fields. -/
structure NViolation where
  rule : Str
  pattern : Option Str := none
  expected : Option Bool := none
  severity : Option Str := none
deriving DecidableEq

/-- A field metadata record; every key may be absent. -/
structure FieldRec where
  apiName : Option Str := none
  fullName : Option Str := none
  label : Option Str := none
  type : Option Str := none
deriving DecidableEq

/-- The per-field violation entry appended to the results. -/
structure FieldViolation where
  apiName : Str
  label : Str
  type : Str
  violations : List NViolation
  recommended_fix : Str
deriving DecidableEq

/-- The result dictionary of analyze_fields. -/
structure NamingResult where
  violations : List FieldViolation
  compliant_field_count : Nat
  total_field_count : Nat
  by_severity_critical : List FieldViolation
  by_severity_medium : List FieldViolation
  by_severity_low : List FieldViolation
  compliance_percentage : Int
deriving DecidableEq

def litLLCBI : Str := "LLC_BI__".data
def litNcUnd : Str := "nc_".data
def litUUc : Str := "__c".data
def litUUX : Str := "__X".data
def litLLCLoanExact : Str := "LLC_BI__Loan__c".data
def litNcLoanUnd : Str := "nc_Loan_".data
def litLoanUnd : Str := "Loan_".data
def litloanUnd : Str := "loan_".data
def litLoan : Str := "Loan".data
def litloan : Str := "loan".data
def litcritical : Str := "critical".data
def litmedium : Str := "medium".data
def litlow : Str := "low".data
def litStandardPatterns : Str := "standard patterns".data
def litCustProjSpec : Str := "custom project-specific".data
def litLowercase : Str := "lowercase".data
def litManagedPackage : Str := "Managed package".data
def litCapCustProjSpec : Str := "Custom project-specific".data
def litInvalidWord : Str := "invalid".data

/-- The convention_rules catalog built in the analyzer constructor. -/
def convention_rules : List ConventionRule :=
  [ { patternText := "^LLC_BI__".data
      regexMatch := fun a => litLLCBI.isPrefixOf a
      description := "Managed package fields from nCino".data
      expected := true }
  , { patternText := "^nc_".data
      regexMatch := fun a => litNcUnd.isPrefixOf a
      description := "Custom project-specific fields".data
      expected := true }
  , { patternText := "^[a-z]".data
      regexMatch := fun a => match a with | [] => false | c :: _ => inRange 97 122 c
      description := "Fields should not start with lowercase letters".data
      expected := false } ]

/-- The loan_object_conventions catalog built in the analyzer constructor. -/
def loan_object_conventions : LoanConventions :=
  { standard_patterns :=
      [ fun a => anchoredEq litLLCLoanExact a
      , fun a => anchoredPSD litLLCBI litUUc a ]
  , custom_patterns :=
      [ fun a => anchoredPSD litNcLoanUnd litUUc a
      , fun a => anchoredPSD litNcUnd litUUc a ]
  , invalid_patterns :=
      [ fun a => litLoanUnd.isPrefixOf a
      , fun a => litloanUnd.isPrefixOf a
      , fun a => anchoredSuffix litUUX a ] }

/-- The structural Loan violation for a name matching neither pattern group. -/
def vioLoanStructural : NViolation :=
  { rule := "Loan-related fields must follow standard or custom patterns".data
    severity := some litcritical }

/-- The structural violation for a name matching an invalid pattern. -/
def vioInvalidPattern : NViolation :=
  { rule := "Field uses an invalid naming pattern".data
    severity := some litcritical }

/-- The api name resolution `field.get("apiName") or field.get("fullName") or ""`. -/
def resolveApiName (f : FieldRec) : Str := pyOrStr f.apiName (pyOrStr f.fullName [])

/-- The violation list collected for one field in the analyze_fields loop:
catalog-rule mismatches in catalog order, then the Loan structural checks. -/
def fieldViolations (crules : List ConventionRule) (loan : LoanConventions) (a : Str) :
    List NViolation :=
  (crules.filterMap (fun r =>
    let m := r.regexMatch a
    if (r.expected && !m) || (!r.expected && m) then
      some { rule := r.description, pattern := some r.patternText, expected := some r.expected }
    else none))
  ++ (if isSubstr litLoan a || isSubstr litloan a then
        (let is_standard := loan.standard_patterns.any (fun p => p a)
         let is_custom := loan.custom_patterns.any (fun p => p a)
         let has_invalid_pattern := loan.invalid_patterns.any (fun p => p a)
         (if !is_standard && !is_custom && isSubstr litLoan a then [vioLoanStructural] else [])
         ++ (if has_invalid_pattern then [vioInvalidPattern] else []))
      else [])

/-- determine_severity: critical on an explicit critical severity or on rule
text mentioning Loan or standard patterns, medium on rule text mentioning
custom project-specific (a case-sensitive substring test), else low. -/
def determine_severity (violations : List NViolation) : Str :=
  if violations.any (fun v => v.severity == some litcritical) then litcritical
  else if violations.any (fun v =>
    isSubstr litLoan v.rule || isSubstr litStandardPatterns v.rule) then litcritical
  else if violations.any (fun v => isSubstr litCustProjSpec v.rule) then litmedium
  else litlow

def recLowercaseFix (c : Char) (rest : Str) : Str :=
  "Change first character '".data ++ [c] ++ "' to uppercase: '".data
    ++ [c.toUpper] ++ rest ++ "'".data

def recAddNcFix (a : Str) : Str := "Add 'nc_' prefix: 'nc_".data ++ a ++ "'".data

def recAddEitherFix : Str :=
  "Add appropriate prefix ('LLC_BI__' for managed package fields or 'nc_' for custom fields)".data

/-- Python api_name.replace applied to the two fixed three-character needles:
every occurrence of underscore-underscore-X becomes underscore-underscore-c. -/
def replaceUUXbyUUc : Str → Str
  | '_' :: '_' :: 'X' :: rest => '_' :: '_' :: 'c' :: replaceUUXbyUUc rest
  | c :: rest => c :: replaceUUXbyUUc rest
  | [] => []

def recRemoveXFix (a : Str) : Str :=
  "Remove '__X' suffix: '".data ++ replaceUUXbyUUc a ++ "'".data

def recLoanRenameFix (a : Str) : Str := "Change to 'nc_Loan_".data ++ a.drop 5 ++ "'".data

def recGenericRename : Str :=
  "Rename to follow standard pattern (LLC_BI__*__c) or custom pattern (nc_*__c)".data

def recFallback : Str := "Review field naming and apply appropriate convention".data

/-- The branches of generate_recommendation other than the lowercase one
(shared by the raising model and its total twin). -/
def recommendationRest (a : Str) (violations : List NViolation) : Str :=
  if violations.any (fun v =>
      isSubstr litManagedPackage v.rule || isSubstr litCapCustProjSpec v.rule) then
    if isSubstr litLoan a && !(litLLCBI.isPrefixOf a) && !(litNcUnd.isPrefixOf a) then
      recAddNcFix a
    else recAddEitherFix
  else if violations.any (fun v => isSubstr litInvalidWord v.rule) then
    if litUUX.isSuffixOf a then recRemoveXFix a
    else if litloanUnd.isPrefixOf a then recLoanRenameFix a
    else recGenericRename
  else recFallback

/-- generate_recommendation as written: the lowercase branch indexes
api_name at position zero, which raises IndexError on an empty name. -/
def generate_recommendation (a : Str) (violations : List NViolation) : Except PyErr Str :=
  if violations.any (fun v => isSubstr litLowercase v.rule) then
    match a with
    | [] => .error .indexError
    | c :: rest => .ok (recLowercaseFix c rest)
  else .ok (recommendationRest a violations)

/-- Total twin of generate_recommendation, meaningful whenever the lowercase
branch implies a non-empty name (which analyze_fields guarantees). -/
def generate_recommendation_t (a : Str) (violations : List NViolation) : Str :=
  if violations.any (fun v => isSubstr litLowercase v.rule) then
    match a with
    | [] => []
    | c :: rest => recLowercaseFix c rest
  else recommendationRest a violations

/-- One iteration of the analyze_fields loop, with the possible IndexError
of generate_recommendation made explicit; returns none for a compliant field
and the computed severity together with the violation entry otherwise. -/
def analyzeFieldE (crules : List ConventionRule) (loan : LoanConventions) (f : FieldRec) :
    Except PyErr (Option (Str × FieldViolation)) :=
  let a := resolveApiName f
  let vs := fieldViolations crules loan a
  if vs.isEmpty then .ok none
  else
    match generate_recommendation a vs with
    | .error e => .error e
    | .ok fix => .ok (some (determine_severity vs,
        { apiName := a, label := f.label.getD [], type := f.type.getD []
          violations := vs, recommended_fix := fix }))

/-- Total twin of the loop body. -/
def analyzeField (crules : List ConventionRule) (loan : LoanConventions) (f : FieldRec) :
    Option (Str × FieldViolation) :=
  let a := resolveApiName f
  let vs := fieldViolations crules loan a
  if vs.isEmpty then none
  else some (determine_severity vs,
    { apiName := a, label := f.label.getD [], type := f.type.getD []
      violations := vs, recommended_fix := generate_recommendation_t a vs })

/-- Run an Except-valued body over a list, stopping at the first error, as an
uncaught exception stops the Python loop. -/
def mapExcept (F : α → Except PyErr β) : List α → Except PyErr (List β)
  | [] => .ok []
  | x :: xs =>
    match F x with
    | .error e => .error e
    | .ok y =>
      match mapExcept F xs with
      | .error e => .error e
      | .ok ys => .ok (y :: ys)

/-- Assemble the analyze_fields result dictionary from the per-field loop
outcomes (in input order, as the loop appends them). -/
def buildNamingResult (total : Nat) (opts : List (Option (Str × FieldViolation))) :
    NamingResult :=
  let flagged := opts.filterMap id
  let compliant := opts.countP (fun o => o.isNone)
  { violations := flagged.map Prod.snd
    compliant_field_count := compliant
    total_field_count := total
    by_severity_critical := (flagged.filter (fun p => p.1 == litcritical)).map Prod.snd
    by_severity_medium := (flagged.filter (fun p => p.1 == litmedium)).map Prod.snd
    by_severity_low := (flagged.filter (fun p => p.1 == litlow)).map Prod.snd
    compliance_percentage := pyRoundRatio ((compliant : Int) * 100) (total : Int) }

/-- analyze_fields on an already validated non-empty list. -/
def analyze_fields_impl (crules : List ConventionRule) (loan : LoanConventions)
    (fields : List FieldRec) : Except PyErr NamingResult :=
  match mapExcept (analyzeFieldE crules loan) fields with
  | .error e => .error e
  | .ok opts => .ok (buildNamingResult fields.length opts)

/-- analyze_fields: rejects a missing, non-list or empty argument, then runs
the analysis with the constructor catalogs. -/
def analyze_fields : PyInput FieldRec → Except PyErr NamingResult
  | .list fields =>
    if fields.isEmpty then .error .invalidInput
    else analyze_fields_impl convention_rules loan_object_conventions fields
  | _ => .error .invalidInput

/-! Bypass-pattern analyzer (src/models/bypass_pattern_analyzer.py). -/

/-- A catalog entry of the bypass detection rules. -/
structure VRPattern where
  name : Str
  regexMatch : Str → Bool
  severity : Str
  description : Str
  recommended_approach : Str

/-- A flow catalog entry, with its separate location and condition patterns. -/
structure FlowPattern where
  name : Str
  location_match : Str → Bool
  condition_match : Str → Bool
  severity : Str
  description : Str
  recommended_approach : Str

/-- A finding attached to a record that matched a catalog entry. -/
structure Finding where
  name : Str
  severity : Str
  description : Str
  recommended_approach : Str
deriving DecidableEq

/-- A validation-rule metadata record; every key may be absent. -/
structure VRRecord where
  apiName : Option Str := none
  fullName : Option Str := none
  errorConditionFormula : Option Str := none
  formula : Option Str := none
  description : Option Str := none
  active : Option Bool := none
deriving DecidableEq

/-- An Apex-trigger metadata record; every key may be absent. -/
structure TriggerRecord where
  name : Option Str := none
  content : Option Str := none
  code : Option Str := none
  active : Option Bool := none
deriving DecidableEq

/-- A flagged record in bypass_patterns: validation rules carry apiName and
description keys, triggers carry a name key - absent keys are none. -/
structure FlaggedRecord where
  apiName : Option Str := none
  name : Option Str := none
  active : Bool := false
  description : Option Str := none
  patterns : List Finding := []
  highest_severity : Str := []
deriving DecidableEq

/-- The result dictionary of analyze_validation_rules / analyze_apex_triggers
(the two share one shape; the Python key names total_rules / rules_with_bypass
and total_triggers / triggers_with_bypass are unified as total_components /
components_with_bypass). -/
structure BypassResult where
  bypass_patterns : List FlaggedRecord
  by_pattern : List (Str × List Str)
  by_severity_High : List Str
  by_severity_Medium : List Str
  by_severity_Low : List Str
  total_components : Nat
  components_with_bypass : Nat
  bypass_percentage : Int
  security_score : Int
deriving DecidableEq

def litHigh : Str := "High".data
def litMedium : Str := "Medium".data
def litLow : Str := "Low".data
def litProfileNameTok : Str := "$Profile.Name".data
def litCONTAINS : Str := "CONTAINS".data
def litNOTPermissionTok : Str := "NOT($Permission.".data
def litUserIdTok : Str := "$User.Id".data
def litRecordTypeNameTok : Str := "RecordType.Name".data
def litBangEq : Str := "!=".data
def litLtGt : Str := "<>".data
def litOwnerIdTok : Str := "OwnerId".data
def litFeatureMgmtTok : Str := "FeatureManagement.checkPermission".data
def litIdTok : Str := "Id".data
def litEqEq : Str := "==".data
def lit005 : Str := "005".data
def litProfileNameLower : Str := "profile.name".data
def litUserinfoGetProfile : Str := "userinfo.getprofileid()".data

/-- The compiled regex of the Profile-based bypass entry: dollar-Profile.Name
then whitespace then a literal equals sign, one of equals/bang, and another
equals sign - or dollar-Profile.Name, any characters, CONTAINS. -/
def vrMatch1 (cs : Str) : Bool :=
  searchAny
    [ seqs [mLit litProfileNameTok, mStar isPySpace, mChar '=', mClass isEqBang, mChar '=']
    , seqs [mLit litProfileNameTok, mStar isDotChar, mLit litCONTAINS] ] cs

/-- The compiled regex of the Custom permission bypass entry. -/
def vrMatch2 (cs : Str) : Bool :=
  searchAny [seqs [mLit litNOTPermissionTok, mPlus isNotRParen, mChar ')']] cs

/-- The compiled regex of the User ID bypass entry. -/
def vrMatch3 (cs : Str) : Bool :=
  searchAny
    [ seqs [mLit litUserIdTok, mStar isPySpace, mChar '=', mClass isEqBang, mChar '=']
    , seqs [mLit litUserIdTok, mStar isDotChar, mLit litCONTAINS] ] cs

/-- The compiled regex of the Record Type bypass entry. -/
def vrMatch4 (cs : Str) : Bool :=
  searchAny
    [ seqs [mLit litRecordTypeNameTok, mStar isPySpace, mLit litBangEq]
    , seqs [mLit litRecordTypeNameTok, mStar isPySpace, mLit litLtGt] ] cs

/-- The compiled regex of the Owner ID bypass entry. -/
def vrMatch5 (cs : Str) : Bool :=
  searchAny
    [ seqs [mLit litOwnerIdTok, mStar isPySpace, mChar '=', mClass isEqBang, mChar '=',
            mStar isPySpace, mLit litUserIdTok] ] cs

/-- The compiled regex of the Feature management permission check entry. -/
def tgMatch1 (cs : Str) : Bool :=
  searchAny
    [ seqs [mLit litFeatureMgmtTok, mStar isPySpace, mChar '(', mStar isPySpace,
            mClass isQuote, mPlus isWordChar, mClass isQuote] ] cs

/-- The compiled regex of the Custom setting bypass entry. -/
def tgMatch2 (cs : Str) : Bool :=
  searchAny
    [ seqs [mPlus isWordChar, mLit litUUc, mChar '.', mPlus isWordChar, mLit litUUc] ] cs

/-- The compiled regex of the Hardcoded User ID check entry. -/
def tgMatch3 (cs : Str) : Bool :=
  searchAny
    [ seqs [mLit litIdTok, mStar isPySpace, mLit litEqEq, mStar isPySpace, mClass isQuote,
            mLit lit005, mRep isAlnum 12 15, mClass isQuote] ] cs

/-- The compiled regex of the Profile name check entry, with the IGNORECASE
flag modelled by folding the haystack to lower case. -/
def tgMatch4 (cs : Str) : Bool :=
  searchAny
    [ seqs [mLit litProfileNameLower, mStar isPySpace, mLit litEqEq, mStar isPySpace,
            mClass isQuote]
    , seqs [mLit litUserinfoGetProfile, mStar isPySpace, mLit litEqEq, mStar isPySpace,
            mClass isQuote] ] (cs.map Char.toLower)

/-- The validation_rule_patterns catalog built in the constructor. -/
def validation_rule_patterns : List VRPattern :=
  [ { name := "Profile-based bypass".data
      regexMatch := vrMatch1
      severity := litMedium
      description := "Using Profile.Name to bypass validation rules creates maintenance challenges when profiles change and makes rules difficult to manage at scale.".data
      recommended_approach := "Use custom permissions instead, which are more maintainable and explicit.".data }
  , { name := "Custom permission bypass".data
      regexMatch := vrMatch2
      severity := litLow
      description := "Using NOT with permissions is generally acceptable but should be documented and consistently implemented.".data
      recommended_approach := "Ensure permission names are consistently structured with prefixes like 'Bypass_' for clarity.".data }
  , { name := "User ID bypass".data
      regexMatch := vrMatch3
      severity := litHigh
      description := "Hardcoding specific User IDs creates significant maintenance issues and security risks.".data
      recommended_approach := "Use permission sets, custom permissions, or roles instead of specific User IDs.".data }
  , { name := "Record Type bypass".data
      regexMatch := vrMatch4
      severity := litMedium
      description := "Explicitly excluding certain record types can create maintenance challenges.".data
      recommended_approach := "Use explicit inclusion rather than exclusion when possible.".data }
  , { name := "Owner ID bypass".data
      regexMatch := vrMatch5
      severity := litMedium
      description := "Bypassing validation for record owners may create inconsistent data validation.".data
      recommended_approach := "Consider permission-based approaches that don't depend on record ownership.".data } ]

/-- The apex_trigger_patterns catalog built in the constructor. -/
def apex_trigger_patterns : List VRPattern :=
  [ { name := "Feature management permission check".data
      regexMatch := tgMatch1
      severity := litLow
      description := "Using FeatureManagement to check permissions is recommended, but should be implemented consistently.".data
      recommended_approach := "Use a consistent pattern like return !FeatureManagement.checkPermission('Bypass_Trigger');".data }
  , { name := "Custom setting bypass".data
      regexMatch := tgMatch2
      severity := litMedium
      description := "Using custom settings to control trigger execution can create maintenance challenges.".data
      recommended_approach := "Document the custom setting usage and ensure consistent implementation.".data }
  , { name := "Hardcoded User ID check".data
      regexMatch := tgMatch3
      severity := litHigh
      description := "Hardcoding User IDs creates significant maintenance issues and security risks.".data
      recommended_approach := "Use permission sets, custom permissions, or roles instead of specific User IDs.".data }
  , { name := "Profile name check".data
      regexMatch := tgMatch4
      severity := litMedium
      description := "Using profile names or IDs to bypass logic creates maintenance challenges.".data
      recommended_approach := "Use custom permissions instead of relying on profiles.".data } ]

/-- The flow_patterns catalog built in the constructor (no analyzer entry
point consumes it; it is carried as analyzer state). -/
def flow_patterns : List FlowPattern :=
  [ { name := "Permission-based bypass".data
      location_match := fun s => isSubstr ("Start".data) s || isSubstr ("Decision".data) s
      condition_match := fun s => isSubstr ("$Permission.".data) s
      severity := litLow
      description := "Using permissions to control flow execution is a recommended pattern when implemented consistently.".data
      recommended_approach := "Use a consistent naming convention for bypass permissions.".data }
  , { name := "Profile-based bypass".data
      location_match := fun s => isSubstr ("Start".data) s || isSubstr ("Decision".data) s
      condition_match := fun s => isSubstr ("$Profile.".data) s
      severity := litMedium
      description := "Using profiles to control flow execution creates maintenance challenges.".data
      recommended_approach := "Use custom permissions instead of relying on profiles.".data }
  , { name := "User ID bypass".data
      location_match := fun s => isSubstr ("Start".data) s || isSubstr ("Decision".data) s
      condition_match := fun s => isSubstr ("$User.Id".data) s
      severity := litHigh
      description := "Hardcoding User IDs creates significant maintenance issues and security risks.".data
      recommended_approach := "Use permission sets, custom permissions, or roles instead of specific User IDs.".data } ]

/-- determine_highest_severity over a list of findings. -/
def determine_highest_severity (patterns : List Finding) : Str :=
  if patterns.any (fun p => p.severity == litHigh) then litHigh
  else if patterns.any (fun p => p.severity == litMedium) then litMedium
  else litLow

/-- calculate_security_score: 100, minus (withBypass/total)*100*0.3 when
total is positive, minus 5 per High and 2 per Medium record, rounded and then
clamped to the 0..100 range.  The rounded quantity is represented as the
exact ratio ((100 - 5*high - 2*medium)*total - 30*withBypass) / total, which
equals 100 - (withBypass/total)*100*0.3 - 5*high - 2*medium. -/
def calculate_security_score (withBypass total highCount medCount : Nat) : Int :=
  if 0 < total then
    max 0 (min 100 (pyRoundRatio
      ((100 - 5 * (highCount : Int) - 2 * (medCount : Int)) * (total : Int)
        - 30 * (withBypass : Int)) (total : Int)))
  else
    max 0 (min 100 (pyRoundRatio (100 - 5 * (highCount : Int) - 2 * (medCount : Int)) 1))

/-- The formula/api-name resolutions of the analyze_validation_rules loop. -/
def vrFormulaOf (r : VRRecord) : Str := pyOrStr r.errorConditionFormula (pyOrStr r.formula [])

def vrNameOf (r : VRRecord) : Str := pyOrStr r.apiName (pyOrStr r.fullName [])

/-- The findings of one validation rule, in catalog order. -/
def vrFindingsOf (pats : List VRPattern) (r : VRRecord) : List Finding :=
  (pats.filter (fun p => p.regexMatch (vrFormulaOf r))).map
    (fun p => { name := p.name, severity := p.severity, description := p.description
                recommended_approach := p.recommended_approach })

/-- analyze_validation_rules on an already validated non-empty list. -/
def analyze_validation_rules_impl (pats : List VRPattern) (rules : List VRRecord) :
    BypassResult :=
  let withBypass := rules.countP (fun r => !(vrFindingsOf pats r).isEmpty)
  let highB := rules.filterMap (fun r =>
    if !(vrFindingsOf pats r).isEmpty && determine_highest_severity (vrFindingsOf pats r) == litHigh
    then some (vrNameOf r) else none)
  let medB := rules.filterMap (fun r =>
    if !(vrFindingsOf pats r).isEmpty && determine_highest_severity (vrFindingsOf pats r) == litMedium
    then some (vrNameOf r) else none)
  let lowB := rules.filterMap (fun r =>
    if !(vrFindingsOf pats r).isEmpty && determine_highest_severity (vrFindingsOf pats r) == litLow
    then some (vrNameOf r) else none)
  { bypass_patterns := rules.filterMap (fun r =>
      let fs := vrFindingsOf pats r
      if fs.isEmpty then none
      else some { apiName := some (vrNameOf r), name := none, active := r.active.getD false
                  description := some (r.description.getD []), patterns := fs
                  highest_severity := determine_highest_severity fs })
    by_pattern := pats.map (fun p =>
      (p.name, rules.filterMap (fun r =>
        if p.regexMatch (vrFormulaOf r) then some (vrNameOf r) else none)))
    by_severity_High := highB
    by_severity_Medium := medB
    by_severity_Low := lowB
    total_components := rules.length
    components_with_bypass := withBypass
    bypass_percentage :=
      if 0 < rules.length then pyRoundRatio ((withBypass : Int) * 100) (rules.length : Int) else 0
    security_score := calculate_security_score withBypass rules.length highB.length medB.length }

/-- analyze_validation_rules: rejects a missing, non-list or empty argument. -/
def analyze_validation_rules : PyInput VRRecord → Except PyErr BypassResult
  | .list rules =>
    if rules.isEmpty then .error .invalidInput
    else .ok (analyze_validation_rules_impl validation_rule_patterns rules)
  | _ => .error .invalidInput

/-- The content/name resolutions of the analyze_apex_triggers loop. -/
def tgContentOf (r : TriggerRecord) : Str := pyOrStr r.content (pyOrStr r.code [])

def tgNameOf (r : TriggerRecord) : Str := pyOrStr r.name []

/-- The findings of one trigger, in catalog order. -/
def tgFindingsOf (pats : List VRPattern) (r : TriggerRecord) : List Finding :=
  (pats.filter (fun p => p.regexMatch (tgContentOf r))).map
    (fun p => { name := p.name, severity := p.severity, description := p.description
                recommended_approach := p.recommended_approach })

/-- analyze_apex_triggers on an already validated non-empty list. -/
def analyze_apex_triggers_impl (pats : List VRPattern) (triggers : List TriggerRecord) :
    BypassResult :=
  let withBypass := triggers.countP (fun r => !(tgFindingsOf pats r).isEmpty)
  let highB := triggers.filterMap (fun r =>
    if !(tgFindingsOf pats r).isEmpty && determine_highest_severity (tgFindingsOf pats r) == litHigh
    then some (tgNameOf r) else none)
  let medB := triggers.filterMap (fun r =>
    if !(tgFindingsOf pats r).isEmpty && determine_highest_severity (tgFindingsOf pats r) == litMedium
    then some (tgNameOf r) else none)
  let lowB := triggers.filterMap (fun r =>
    if !(tgFindingsOf pats r).isEmpty && determine_highest_severity (tgFindingsOf pats r) == litLow
    then some (tgNameOf r) else none)
  { bypass_patterns := triggers.filterMap (fun r =>
      let fs := tgFindingsOf pats r
      if fs.isEmpty then none
      else some { apiName := none, name := some (tgNameOf r), active := r.active.getD false
                  description := none, patterns := fs
                  highest_severity := determine_highest_severity fs })
    by_pattern := pats.map (fun p =>
      (p.name, triggers.filterMap (fun r =>
        if p.regexMatch (tgContentOf r) then some (tgNameOf r) else none)))
    by_severity_High := highB
    by_severity_Medium := medB
    by_severity_Low := lowB
    total_components := triggers.length
    components_with_bypass := withBypass
    bypass_percentage :=
      if 0 < triggers.length then pyRoundRatio ((withBypass : Int) * 100) (triggers.length : Int)
      else 0
    security_score := calculate_security_score withBypass triggers.length highB.length medB.length }

/-- analyze_apex_triggers: rejects a missing, non-list or empty argument. -/
def analyze_apex_triggers : PyInput TriggerRecord → Except PyErr BypassResult
  | .list triggers =>
    if triggers.isEmpty then .error .invalidInput
    else .ok (analyze_apex_triggers_impl apex_trigger_patterns triggers)
  | _ => .error .invalidInput

/-- The sort key rank of severity_order: High 0, Medium 1, Low 2, other 3. -/
def sevRank (s : Str) : Nat :=
  if s == litHigh then 0 else if s == litMedium then 1 else if s == litLow then 2 else 3

/-- The identifier component of severity_order: the apiName value when the
key is present, else the name value, else empty. -/
def identOf (it : FlaggedRecord) : Str :=
  match it.apiName with
  | some s => s
  | none => match it.name with | some s => s | none => []

/-- The comparison of the Python sort key (severity rank, identifier). -/
def keyLE (a b : FlaggedRecord) : Bool :=
  if sevRank a.highest_severity < sevRank b.highest_severity then true
  else if sevRank b.highest_severity < sevRank a.highest_severity then false
  else strLe (identOf a) (identOf b)

/-- Stable insertion of an element behind every element currently at or below
its key, reproducing the order of the stable Python sorted. -/
def insertPriority (x : FlaggedRecord) : List FlaggedRecord → List FlaggedRecord
  | [] => [x]
  | y :: ys => if keyLE y x then y :: insertPriority x ys else x :: y :: ys

/-- generate_refactoring_priorities: bypass_patterns sorted by (severity
rank, identifier), stably. -/
def generate_refactoring_priorities (results : BypassResult) : List FlaggedRecord :=
  results.bypass_patterns.foldl (fun acc x => insertPriority x acc) []

/-! Report synthesizer (src/utils/report_generator.py). -/

def litExcellent : Str := "Excellent".data
def litGood : Str := "Good".data
def litFair : Str := "Fair".data
def litPoor : Str := "Poor".data
def litCriticalBand : Str := "Critical".data
def litNA : Str := "N/A".data

/-- The overall_score dictionary; the early no-domain return carries no
component_scores key. -/
structure OverallScore where
  score : Int
  rating : Str
  component_scores : Option (Int × Int × Int)
deriving DecidableEq

/-- The rating bands of calculate_overall_score. -/
def ratingBand (s : Int) : Str :=
  if 90 ≤ s then litExcellent
  else if 75 ≤ s then litGood
  else if 60 ≤ s then litFair
  else if 40 ≤ s then litPoor
  else litCriticalBand

/-- Twice the weighted sum of the present domain scores, an integer. -/
def overallWeightedSum2 (naming validation triggers : Option Int) : Int :=
  (match naming with | some s => 2 * s | none => 0)
  + (match validation with | some s => 3 * s | none => 0)
  + (match triggers with | some s => 3 * s | none => 0)

/-- Twice the total weight of the present domains, an integer. -/
def overallTotalWeight2 (naming validation triggers : Option Int) : Int :=
  (if naming.isSome then 2 else 0) + (if validation.isSome then 3 else 0)
  + (if triggers.isSome then 3 else 0)

/-- calculate_overall_score over the three optional domain scores (naming
compliance percentage weight 1, validation security score weight 1.5,
trigger security score weight 1.5).  The weighted average is represented as
the exact ratio over twice the total weight, so weight 1 contributes factor
2 and weight 1.5 contributes factor 3. -/
def calculate_overall_score (naming validation triggers : Option Int) : OverallScore :=
  if naming.isNone && validation.isNone && triggers.isNone then
    { score := 0, rating := litNA, component_scores := none }
  else
    let weighted_average :=
      pyRoundRatio (overallWeightedSum2 naming validation triggers)
        (overallTotalWeight2 naming validation triggers)
    { score := weighted_average
      rating := ratingBand weighted_average
      component_scores := some (naming.getD 0, validation.getD 0, triggers.getD 0) }

/-- The spec-side weighted sum of the present domain scores. -/
def overallWeightedSum (naming validation triggers : Option Int) : ℚ :=
  (match naming with | some s => (s : ℚ) | none => 0)
  + (match validation with | some s => (3 : ℚ)/2 * (s : ℚ) | none => 0)
  + (match triggers with | some s => (3 : ℚ)/2 * (s : ℚ) | none => 0)

/-- The spec-side total weight of the present domains. -/
def overallTotalWeight (naming validation triggers : Option Int) : ℚ :=
  (if naming.isSome then (1 : ℚ) else 0)
  + (if validation.isSome then (3 : ℚ)/2 else 0)
  + (if triggers.isSome then (3 : ℚ)/2 else 0)

/-! Analyzer instance state: the constructor-built catalogs.  None of the
source methods assigns to self, so every method returns its state unchanged
next to its result. -/

structure NamingAnalyzerState where
  convention_rules : List ConventionRule
  loan_object_conventions : LoanConventions

structure BypassAnalyzerState where
  validation_rule_patterns : List VRPattern
  apex_trigger_patterns : List VRPattern
  flow_patterns : List FlowPattern

/-- NamingConventionAnalyzer.__init__. -/
def NamingConventionAnalyzer_new : NamingAnalyzerState :=
  { convention_rules := convention_rules
    loan_object_conventions := loan_object_conventions }

/-- BypassPatternAnalyzer.__init__. -/
def BypassPatternAnalyzer_new : BypassAnalyzerState :=
  { validation_rule_patterns := validation_rule_patterns
    apex_trigger_patterns := apex_trigger_patterns
    flow_patterns := flow_patterns }

/-- analyze_fields as a method: reads the catalogs from the instance state
and returns the state it leaves behind next to the result. -/
def analyze_fields_method (st : NamingAnalyzerState) (inp : PyInput FieldRec) :
    NamingAnalyzerState × Except PyErr NamingResult :=
  (st,
    match inp with
    | .list fields =>
      if fields.isEmpty then .error .invalidInput
      else analyze_fields_impl st.convention_rules st.loan_object_conventions fields
    | _ => .error .invalidInput)

/-- analyze_validation_rules as a method. -/
def analyze_validation_rules_method (st : BypassAnalyzerState) (inp : PyInput VRRecord) :
    BypassAnalyzerState × Except PyErr BypassResult :=
  (st,
    match inp with
    | .list rules =>
      if rules.isEmpty then .error .invalidInput
      else .ok (analyze_validation_rules_impl st.validation_rule_patterns rules)
    | _ => .error .invalidInput)

/-- analyze_apex_triggers as a method. -/
def analyze_apex_triggers_method (st : BypassAnalyzerState) (inp : PyInput TriggerRecord) :
    BypassAnalyzerState × Except PyErr BypassResult :=
  (st,
    match inp with
    | .list triggers =>
      if triggers.isEmpty then .error .invalidInput
      else .ok (analyze_apex_triggers_impl st.apex_trigger_patterns triggers)
    | _ => .error .invalidInput)

/-! Derived notions used by the statements below. -/

/-- The priority order of the refactoring queue: strictly smaller severity
rank (High 0, Medium 1, Low 2), or equal rank and identifier at most the
other identifier in code-point lexicographic order. -/
def priorityLE (a b : FlaggedRecord) : Prop :=
  sevRank a.highest_severity < sevRank b.highest_severity ∨
    (sevRank a.highest_severity = sevRank b.highest_severity ∧
      strLe (identOf a) (identOf b) = true)

/-- The input shapes every analyzer entry point rejects: a missing argument,
a non-list argument, or an empty list. -/
def invalidShape {α : Type} (inp : PyInput α) : Prop :=
  inp = PyInput.none ∨ inp = PyInput.notList ∨ inp = PyInput.list []

/-- Replace every missing key of a field record by its documented default. -/
def fillFieldDefaults (f : FieldRec) : FieldRec :=
  { apiName := some (f.apiName.getD []), fullName := some (f.fullName.getD [])
    label := some (f.label.getD []), type := some (f.type.getD []) }

/-- Replace every missing key of a validation-rule record by its default. -/
def fillVRDefaults (r : VRRecord) : VRRecord :=
  { apiName := some (r.apiName.getD []), fullName := some (r.fullName.getD [])
    errorConditionFormula := some (r.errorConditionFormula.getD [])
    formula := some (r.formula.getD [])
    description := some (r.description.getD []), active := some (r.active.getD false) }

/-- Replace every missing key of a trigger record by its default. -/
def fillTriggerDefaults (r : TriggerRecord) : TriggerRecord :=
  { name := some (r.name.getD []), content := some (r.content.getD [])
    code := some (r.code.getD []), active := some (r.active.getD false) }

/-- The error-condition formula of the spec scenario for the Profile-based
bypass pattern. -/
def profileScenarioFormula : Str := "$Profile.Name != 'System Administrator'".data

/-- A validation rule whose formula is the spec scenario formula. -/
def profileScenarioRule : VRRecord := { errorConditionFormula := some profileScenarioFormula }

/-- The field record of the missing-prefix spec scenario. -/
def customFieldRec : FieldRec := { apiName := some ("customField__c".data) }

/-- The api name of the compliant-Loan-field spec scenario. -/
def ncLoanScoreName : Str := "nc_Loan_Score__c".data

/-- The field record of the compliant-Loan-field spec scenario. -/
def ncLoanScoreRec : FieldRec := { apiName := some ncLoanScoreName }

/-- The catalog-rule violation for a missing managed-package prefix. -/
def vioMissingLLC : NViolation :=
  { rule := "Managed package fields from nCino".data
    pattern := some ("^LLC_BI__".data), expected := some true }

/-- The catalog-rule violation for a missing custom prefix. -/
def vioMissingNc : NViolation :=
  { rule := "Custom project-specific fields".data
    pattern := some ("^nc_".data), expected := some true }

/-- The catalog-rule violation for a lowercase first letter. -/
def vioLowercaseStart : NViolation :=
  { rule := "Fields should not start with lowercase letters".data
    pattern := some ("^[a-z]".data), expected := some false }

/-! Helper lemmas. -/

theorem pyRoundRatio_scale (n d c : Int) (hc : 0 < c) :
    pyRoundRatio (c * n) (c * d) = pyRoundRatio n d := by
  unfold pyRoundRatio
  rw [Int.mul_ediv_mul_of_pos n d hc, Int.mul_emod_mul_of_pos n d hc]
  have h1 : (2 * (c * (n % d)) < c * d) ↔ (2 * (n % d) < d) := by
    rw [show 2 * (c * (n % d)) = c * (2 * (n % d)) by ring]
    exact mul_lt_mul_left hc
  have h2 : (c * d < 2 * (c * (n % d))) ↔ (d < 2 * (n % d)) := by
    rw [show 2 * (c * (n % d)) = c * (2 * (n % d)) by ring]
    exact mul_lt_mul_left hc
  simp only [h1, h2]

/-- The executable integer rounding computes round-half-even of the exact
rational value of the ratio. -/
theorem pyRoundRatio_eq_pyRound (n d : Int) (hd : 0 < d) :
    pyRoundRatio n d = pyRound ((n : ℚ) / (d : ℚ)) := by
  obtain ⟨c, hn, hdd⟩ := Rat.exists_eq_mul_div_num_and_eq_mul_div_den n hd.ne'
  set q : ℚ := (n : ℚ) / (d : ℚ) with hq
  have hden : (0 : Int) < (q.den : Int) := by exact_mod_cast q.pos
  have hc : 0 < c := by
    rcases lt_trichotomy c 0 with h | h | h
    · nlinarith
    · rw [h, zero_mul] at hdd; omega
    · exact h
  rw [pyRound, hn, hdd, pyRoundRatio_scale _ _ _ hc]

theorem length_filterMap_id {α : Type} (l : List (Option α)) :
    (l.filterMap id).length = l.countP (fun o => o.isSome) := by
  induction l with
  | nil => rfl
  | cons o os ih => cases o <;> simp [List.filterMap_cons, List.countP_cons, ih]

theorem countP_isNone_add_isSome {α : Type} (l : List (Option α)) :
    l.countP (fun o => o.isNone) + l.countP (fun o => o.isSome) = l.length := by
  induction l with
  | nil => rfl
  | cons o os ih => cases o <;> simp [List.countP_cons, ih] <;> omega

theorem mapExcept_ok_of {α β : Type} (F : α → Except PyErr β) (g : α → β)
    (hF : ∀ x, F x = .ok (g x)) : ∀ l, mapExcept F l = .ok (l.map g) := by
  intro l
  induction l with
  | nil => rfl
  | cons x xs ih => simp [mapExcept, hF x, ih]

theorem mapExcept_congr {α β : Type} (F G : α → Except PyErr β)
    (h : ∀ x, F x = G x) : ∀ l, mapExcept F l = mapExcept G l := by
  intro l
  induction l with
  | nil => rfl
  | cons x xs ih => simp only [mapExcept, h x, ih]

theorem mapExcept_map {α β γ : Type} (F : β → Except PyErr γ) (g : α → β) (l : List α) :
    mapExcept F (l.map g) = mapExcept (fun x => F (g x)) l := by
  induction l with
  | nil => rfl
  | cons x xs ih => simp only [List.map_cons, mapExcept, ih]

theorem strLt_asymm : ∀ (x y : Str), strLt x y = true → strLt y x = false
  | x, [] => by intro h; cases x <;> simp [strLt] at h
  | [], _ :: _ => by intro _; simp [strLt]
  | a :: as, b :: bs => by
    intro h
    simp only [strLt] at h ⊢
    by_cases h1 : a.toNat < b.toNat
    · have h2 : ¬ b.toNat < a.toNat := by omega
      simp [h1, h2]
    · by_cases h2 : b.toNat < a.toNat
      · simp [h1, h2] at h
      · simp only [if_neg h1, if_neg h2] at h ⊢
        exact strLt_asymm as bs h

theorem strLt_neg_trans : ∀ (x y z : Str),
    strLt x y = false → strLt y z = false → strLt x z = false
  | x, _, [] => by intro _ _; cases x <;> rfl
  | [], y, c :: cs => by
    intro h1 h2
    cases y with
    | nil => simp [strLt] at h2
    | cons b bs => simp [strLt] at h1
  | a :: as, y, c :: cs => by
    cases y with
    | nil => intro _ h2; simp [strLt] at h2
    | cons b bs =>
      intro h1 h2
      simp only [strLt] at h1 h2 ⊢
      by_cases hab : a.toNat < b.toNat
      · simp [hab] at h1
      · by_cases hbc : b.toNat < c.toNat
        · simp [hbc] at h2
        · by_cases hac : a.toNat < c.toNat
          · omega
          · by_cases hca : c.toNat < a.toNat
            · simp [hac, hca]
            · have hba : ¬ b.toNat < a.toNat := by omega
              have hcb : ¬ c.toNat < b.toNat := by omega
              simp only [if_neg hab, if_neg hba] at h1
              simp only [if_neg hbc, if_neg hcb] at h2
              simp only [if_neg hac, if_neg hca]
              exact strLt_neg_trans as bs cs h1 h2

theorem strLe_total (x y : Str) : strLe x y = true ∨ strLe y x = true := by
  unfold strLe
  by_cases h : strLt y x = true
  · right
    simp [strLt_asymm y x h]
  · left
    simp [Bool.not_eq_true] at h
    simp [h]

theorem strLe_trans (x y z : Str) (h1 : strLe x y = true) (h2 : strLe y z = true) :
    strLe x z = true := by
  unfold strLe at h1 h2 ⊢
  simp only [Bool.not_eq_true'] at h1 h2 ⊢
  exact strLt_neg_trans z y x h2 h1

theorem keyLE_iff (a b : FlaggedRecord) : keyLE a b = true ↔ priorityLE a b := by
  unfold keyLE priorityLE
  by_cases h1 : sevRank a.highest_severity < sevRank b.highest_severity
  · simp [h1]
  · by_cases h2 : sevRank b.highest_severity < sevRank a.highest_severity
    · simp only [if_neg h1, if_pos h2]
      constructor
      · intro h; exact absurd h (by simp)
      · rintro (h | ⟨heq, _⟩)
        · omega
        · omega
    · have heq : sevRank a.highest_severity = sevRank b.highest_severity := by omega
      simp [h1, h2, heq]

theorem keyLE_total (a b : FlaggedRecord) : keyLE a b = true ∨ keyLE b a = true := by
  unfold keyLE
  by_cases h1 : sevRank a.highest_severity < sevRank b.highest_severity
  · left; simp [h1]
  · by_cases h2 : sevRank b.highest_severity < sevRank a.highest_severity
    · right; simp [h1, h2]
    · simp only [if_neg h1, if_neg h2]
      exact strLe_total (identOf a) (identOf b)

theorem keyLE_trans (a b c : FlaggedRecord)
    (h1 : keyLE a b = true) (h2 : keyLE b c = true) : keyLE a c = true := by
  unfold keyLE at h1 h2 ⊢
  by_cases hab : sevRank a.highest_severity < sevRank b.highest_severity
  · have hcb : ¬ sevRank c.highest_severity < sevRank b.highest_severity := by
      intro hc
      rw [if_neg (by omega), if_pos hc] at h2
      exact absurd h2 (by simp)
    have hac : sevRank a.highest_severity < sevRank c.highest_severity := by omega
    simp [hac]
  · have hba : ¬ sevRank b.highest_severity < sevRank a.highest_severity := by
      intro hc
      rw [if_neg hab, if_pos hc] at h1
      exact absurd h1 (by simp)
    by_cases hbc : sevRank b.highest_severity < sevRank c.highest_severity
    · have hac : sevRank a.highest_severity < sevRank c.highest_severity := by omega
      simp [hac]
    · have hcb : ¬ sevRank c.highest_severity < sevRank b.highest_severity := by
        intro hc
        rw [if_neg hbc, if_pos hc] at h2
        exact absurd h2 (by simp)
      rw [if_neg hab, if_neg hba] at h1
      rw [if_neg hbc, if_neg hcb] at h2
      have hac : ¬ sevRank a.highest_severity < sevRank c.highest_severity := by omega
      have hca : ¬ sevRank c.highest_severity < sevRank a.highest_severity := by omega
      rw [if_neg hac, if_neg hca]
      exact strLe_trans _ _ _ h1 h2

theorem priorityLE_trans (a b c : FlaggedRecord)
    (h1 : priorityLE a b) (h2 : priorityLE b c) : priorityLE a c := by
  rw [← keyLE_iff] at h1 h2 ⊢
  exact keyLE_trans a b c h1 h2

theorem priorityLE_total (a b : FlaggedRecord) : priorityLE a b ∨ priorityLE b a := by
  rw [← keyLE_iff, ← keyLE_iff]
  exact keyLE_total a b

theorem insertPriority_perm (x : FlaggedRecord) (l : List FlaggedRecord) :
    (insertPriority x l).Perm (x :: l) := by
  induction l with
  | nil => exact List.Perm.refl _
  | cons y ys ih =>
    simp only [insertPriority]
    split
    · exact (ih.cons y).trans (List.Perm.swap x y ys)
    · exact List.Perm.refl _

theorem pairwise_insertPriority (x : FlaggedRecord) (l : List FlaggedRecord)
    (h : List.Pairwise priorityLE l) : List.Pairwise priorityLE (insertPriority x l) := by
  induction l with
  | nil => simp [insertPriority]
  | cons y ys ih =>
    rcases List.pairwise_cons.mp h with ⟨hy, hys⟩
    simp only [insertPriority]
    split
    case isTrue hk =>
      refine List.pairwise_cons.mpr ⟨?_, ih hys⟩
      intro z hz
      have hz2 := (insertPriority_perm x ys).mem_iff.mp hz
      rcases List.mem_cons.mp hz2 with rfl | hz3
      · exact (keyLE_iff y z).mp hk
      · exact hy z hz3
    case isFalse hk =>
      refine List.pairwise_cons.mpr ⟨?_, h⟩
      have hxy : priorityLE x y := by
        rcases priorityLE_total x y with hp | hp
        · exact hp
        · exact absurd ((keyLE_iff y x).mpr hp) hk
      intro z hz
      rcases List.mem_cons.mp hz with rfl | hz2
      · exact hxy
      · exact priorityLE_trans x y z hxy (hy z hz2)

theorem sortLoop_perm (l acc : List FlaggedRecord) :
    (l.foldl (fun acc x => insertPriority x acc) acc).Perm (acc ++ l) := by
  induction l generalizing acc with
  | nil => simp
  | cons x xs ih =>
    simp only [List.foldl_cons]
    refine (ih (insertPriority x acc)).trans ?_
    refine ((insertPriority_perm x acc).append_right xs).trans ?_
    exact List.perm_middle.symm

theorem sortLoop_pairwise (l acc : List FlaggedRecord)
    (h : List.Pairwise priorityLE acc) :
    List.Pairwise priorityLE (l.foldl (fun acc x => insertPriority x acc) acc) := by
  induction l generalizing acc with
  | nil => exact h
  | cons x xs ih =>
    simp only [List.foldl_cons]
    exact ih _ (pairwise_insertPriority x acc h)

/-- Among the violations the analyzer can record, only catalog rule three
mentions lowercase, and it fires only on a name whose first character is a
lowercase letter; hence a lowercase violation implies a non-empty name. -/
theorem lowercase_rule_nonempty (a : Str)
    (h : (fieldViolations convention_rules loan_object_conventions a).any
      (fun v => isSubstr litLowercase v.rule) = true) : a ≠ [] := by
  intro ha
  subst ha
  revert h
  decide

theorem generate_recommendation_ok (a : Str) (vs : List NViolation)
    (himp : vs.any (fun v => isSubstr litLowercase v.rule) = true → a ≠ []) :
    generate_recommendation a vs = .ok (generate_recommendation_t a vs) := by
  unfold generate_recommendation generate_recommendation_t
  by_cases hc : vs.any (fun v => isSubstr litLowercase v.rule) = true
  · simp only [hc, if_true]
    cases a with
    | nil => exact absurd rfl (himp hc)
    | cons c rest => rfl
  · simp only [Bool.not_eq_true] at hc
    simp [hc]

theorem analyzeFieldE_eq_ok (f : FieldRec) :
    analyzeFieldE convention_rules loan_object_conventions f
      = .ok (analyzeField convention_rules loan_object_conventions f) := by
  unfold analyzeFieldE analyzeField
  by_cases he : (fieldViolations convention_rules loan_object_conventions
      (resolveApiName f)).isEmpty
  · simp [he]
  · simp only [he, Bool.false_eq_true, if_false]
    rw [generate_recommendation_ok _ _ (lowercase_rule_nonempty _)]

theorem analyze_fields_impl_eq (fields : List FieldRec) :
    analyze_fields_impl convention_rules loan_object_conventions fields
      = .ok (buildNamingResult fields.length
          (fields.map (analyzeField convention_rules loan_object_conventions))) := by
  unfold analyze_fields_impl
  rw [mapExcept_ok_of _ _ analyzeFieldE_eq_ok]

theorem pyOrStr_fill (a : Option Str) (b : Str) :
    pyOrStr (some (a.getD [])) b = pyOrStr a b := by
  cases a with
  | none => simp [pyOrStr]
  | some s => simp [pyOrStr]

theorem resolveApiName_fill (f : FieldRec) :
    resolveApiName (fillFieldDefaults f) = resolveApiName f := by
  unfold resolveApiName fillFieldDefaults
  simp only [pyOrStr_fill]

theorem analyzeFieldE_fill (crules : List ConventionRule) (loan : LoanConventions)
    (f : FieldRec) :
    analyzeFieldE crules loan (fillFieldDefaults f) = analyzeFieldE crules loan f := by
  unfold analyzeFieldE
  rw [resolveApiName_fill]
  simp [fillFieldDefaults]

theorem vrFormulaOf_fill (r : VRRecord) : vrFormulaOf (fillVRDefaults r) = vrFormulaOf r := by
  unfold vrFormulaOf fillVRDefaults
  simp only [pyOrStr_fill]

theorem vrNameOf_fill (r : VRRecord) : vrNameOf (fillVRDefaults r) = vrNameOf r := by
  unfold vrNameOf fillVRDefaults
  simp only [pyOrStr_fill]

theorem vrFindingsOf_fill (pats : List VRPattern) (r : VRRecord) :
    vrFindingsOf pats (fillVRDefaults r) = vrFindingsOf pats r := by
  unfold vrFindingsOf
  rw [vrFormulaOf_fill]

theorem tgContentOf_fill (r : TriggerRecord) : tgContentOf (fillTriggerDefaults r) = tgContentOf r := by
  unfold tgContentOf fillTriggerDefaults
  simp only [pyOrStr_fill]

theorem tgNameOf_fill (r : TriggerRecord) : tgNameOf (fillTriggerDefaults r) = tgNameOf r := by
  unfold tgNameOf fillTriggerDefaults
  simp only [pyOrStr_fill]

theorem tgFindingsOf_fill (pats : List VRPattern) (r : TriggerRecord) :
    tgFindingsOf pats (fillTriggerDefaults r) = tgFindingsOf pats r := by
  unfold tgFindingsOf
  rw [tgContentOf_fill]

/-! Claim theorems. -/

/-- C1: evaluation of the code at the spec scenario.  The Profile-based
bypass regex demands a literal equals sign, then one of equals or bang, then
another equals sign after the Profile.Name token, so it can only match the
token followed by three equals signs or by equals-bang-equals; the scenario
formula with its bang-equals comparison produces no match, the rule is not
flagged at all, and the result records zero findings and a perfect security
score - against the claimed single Medium Profile-based bypass finding. -/
theorem profile_inequality_formula_not_flagged :
    vrMatch1 profileScenarioFormula = false ∧
    analyze_validation_rules (PyInput.list [profileScenarioRule])
      = .ok (analyze_validation_rules_impl validation_rule_patterns [profileScenarioRule]) ∧
    (analyze_validation_rules_impl validation_rule_patterns
      [profileScenarioRule]).bypass_patterns = [] ∧
    (analyze_validation_rules_impl validation_rule_patterns
      [profileScenarioRule]).components_with_bypass = 0 ∧
    (analyze_validation_rules_impl validation_rule_patterns
      [profileScenarioRule]).by_severity_Medium = [] ∧
    (analyze_validation_rules_impl validation_rule_patterns
      [profileScenarioRule]).security_score = 100 := by
  refine ⟨by decide, rfl, by decide, by decide, by decide, by decide⟩

/-- C4 counterexample: on the input list holding only the customField__c
record, the analysis does not flag the field with one violation of medium
severity: it records three violations for the field (missing managed-package
prefix, missing custom prefix, lowercase start) and buckets it as low
severity - the medium bucket stays empty, because the severity heuristic
compares the lowercase words custom project-specific against catalog rule
two, whose description starts with an uppercase Custom. -/
theorem customField_scenario_counterexample :
    ¬ ((analyze_fields (PyInput.list [customFieldRec])).toOption.map
        (fun r => (r.violations.map (fun v => v.violations.length),
          r.by_severity_medium.length)) = some ([1], 1)) ∧
    (analyze_fields (PyInput.list [customFieldRec])).toOption.map
        (fun r => (r.violations.map (fun v => v.violations.length),
          r.by_severity_medium.length)) = some ([3], 0) := by
  have heq : (analyze_fields (PyInput.list [customFieldRec])).toOption.map
        (fun r => (r.violations.map (fun v => v.violations.length),
          r.by_severity_medium.length)) = some ([3], 0) := by rfl
  refine ⟨?_, heq⟩
  intro hcontra
  rw [heq] at hcontra
  simp at hcontra

/-- C4 as amended: the customField__c record is flagged with exactly the
three violations of catalog rules one, two and three, classified low (not
medium), excluded from the compliant count, and the compliance percentage
is zero. -/
theorem customField_scenario_actual :
    (analyze_fields (PyInput.list [customFieldRec])).toOption.map
        (fun r => (r.violations.map (fun v => v.violations),
          r.by_severity_low.map (fun v => v.apiName),
          r.by_severity_medium.length, r.by_severity_critical.length,
          r.compliant_field_count, r.compliance_percentage))
      = some ([[vioMissingLLC, vioMissingNc, vioLowercaseStart]],
          ["customField__c".data], 0, 0, 0, 0) ∧
    determine_severity [vioMissingLLC, vioMissingNc, vioLowercaseStart] = litlow := by
  exact ⟨by rfl, by rfl⟩

/-- C5 counterexample: on the input list holding only the nc_Loan_Score__c
record, the field is not compliant with zero violations as claimed: the
compliant count is zero and the field is flagged with two violations
(missing managed-package prefix and lowercase start). -/
theorem ncLoanScore_scenario_counterexample :
    ¬ ((analyze_fields (PyInput.list [ncLoanScoreRec])).toOption.map
        (fun r => (r.compliant_field_count, r.violations.length)) = some (1, 0)) ∧
    (analyze_fields (PyInput.list [ncLoanScoreRec])).toOption.map
        (fun r => (r.compliant_field_count,
          r.violations.map (fun v => v.violations)))
      = some (0, [[vioMissingLLC, vioLowercaseStart]]) := by
  have heq : (analyze_fields (PyInput.list [ncLoanScoreRec])).toOption.map
        (fun r => (r.compliant_field_count, r.violations.length)) = some (0, 1) := by rfl
  refine ⟨?_, by rfl⟩
  intro hcontra
  rw [heq] at hcontra
  simp at hcontra

/-- C5 as amended: every field record carrying the apiName nc_Loan_Score__c
is flagged with exactly two violations - the missing managed-package prefix
of catalog rule one and the lowercase start of catalog rule three; the name
matches the custom Loan pattern, so no structural Loan violation is emitted,
and the field lands in the low severity bucket rather than among the
compliant fields. -/
theorem ncLoanScore_two_violations (f : FieldRec) (h : f.apiName = some ncLoanScoreName) :
    fieldViolations convention_rules loan_object_conventions (resolveApiName f)
      = [vioMissingLLC, vioLowercaseStart] ∧
    ∃ fv, analyzeField convention_rules loan_object_conventions f = some (litlow, fv) ∧
      fv.apiName = ncLoanScoreName ∧ fv.violations = [vioMissingLLC, vioLowercaseStart] := by
  have ha : resolveApiName f = ncLoanScoreName := by
    unfold resolveApiName
    rw [h]
    rfl
  have hv : fieldViolations convention_rules loan_object_conventions ncLoanScoreName
      = [vioMissingLLC, vioLowercaseStart] := by rfl
  refine ⟨by rw [ha]; exact hv, ?_⟩
  refine ⟨{ apiName := ncLoanScoreName, label := f.label.getD [], type := f.type.getD []
            violations := [vioMissingLLC, vioLowercaseStart]
            recommended_fix := generate_recommendation_t ncLoanScoreName
              [vioMissingLLC, vioLowercaseStart] }, ?_, rfl, rfl⟩
  unfold analyzeField
  rw [ha]
  rfl

/-- C5 amended witness at the concrete scenario record. -/
theorem ncLoanScore_two_violations_witness :
    ncLoanScoreRec.apiName = some ncLoanScoreName ∧
    (fieldViolations convention_rules loan_object_conventions (resolveApiName ncLoanScoreRec)
        = [vioMissingLLC, vioLowercaseStart] ∧
      ∃ fv, analyzeField convention_rules loan_object_conventions ncLoanScoreRec
          = some (litlow, fv) ∧
        fv.apiName = ncLoanScoreName ∧ fv.violations = [vioMissingLLC, vioLowercaseStart]) :=
  ⟨rfl, ncLoanScore_two_violations ncLoanScoreRec rfl⟩

/-- C6: generate_refactoring_priorities returns a permutation of the flagged
records that is pairwise ordered by priorityLE: every record strictly lower
in severity rank (High before Medium before Low, unknown severities last)
comes first, and records of equal rank are ordered by their identifier
(apiName when the key is present, else name) in code-point lexicographic
ascending order. -/
theorem refactoring_priorities_sorted (results : BypassResult) :
    (generate_refactoring_priorities results).Perm results.bypass_patterns ∧
    List.Pairwise priorityLE (generate_refactoring_priorities results) := by
  constructor
  · have hp := sortLoop_perm results.bypass_patterns []
    simpa using hp
  · exact sortLoop_pairwise results.bypass_patterns [] List.Pairwise.nil

/-- C10: the three analyzer operations, modelled as methods threading the
instance state (the constructor-built pattern catalogs), leave the state
unchanged, and calling any of them a second time on the same input yields
exactly the same output: the methods are deterministic and mutate no
instance state. -/
theorem analyzers_stateless_idempotent (bst : BypassAnalyzerState)
    (nst : NamingAnalyzerState) (inpV : PyInput VRRecord)
    (inpT : PyInput TriggerRecord) (inpF : PyInput FieldRec) :
    (analyze_validation_rules_method bst inpV).1 = bst ∧
    (analyze_validation_rules_method ((analyze_validation_rules_method bst inpV).1) inpV).2
      = (analyze_validation_rules_method bst inpV).2 ∧
    (analyze_apex_triggers_method bst inpT).1 = bst ∧
    (analyze_apex_triggers_method ((analyze_apex_triggers_method bst inpT).1) inpT).2
      = (analyze_apex_triggers_method bst inpT).2 ∧
    (analyze_fields_method nst inpF).1 = nst ∧
    (analyze_fields_method ((analyze_fields_method nst inpF).1) inpF).2
      = (analyze_fields_method nst inpF).2 :=
  ⟨rfl, rfl, rfl, rfl, rfl, rfl⟩

/-- C2: for every non-empty field list the analysis succeeds, every field is
classified exactly once (compliant count plus number of flagged fields
equals the total), and the compliance percentage is the rounded value of
one hundred times the compliant count over the total count. -/
theorem analyze_fields_partition_invariant (fields : List FieldRec) (h : fields ≠ []) :
    ∃ r, analyze_fields (PyInput.list fields) = .ok r ∧
      r.compliant_field_count + r.violations.length = r.total_field_count ∧
      r.total_field_count = fields.length ∧
      r.compliance_percentage = pyRound
        (100 * (r.compliant_field_count : ℚ) / (r.total_field_count : ℚ)) := by
  have hne : fields.isEmpty = false := by
    cases fields with
    | nil => exact absurd rfl h
    | cons a l => rfl
  have hlen : 0 < fields.length := List.length_pos.mpr h
  refine ⟨buildNamingResult fields.length
    (fields.map (analyzeField convention_rules loan_object_conventions)), ?_, ?_, rfl, ?_⟩
  · unfold analyze_fields
    simp only [hne, Bool.false_eq_true, if_false]
    exact analyze_fields_impl_eq fields
  · show (fields.map (analyzeField convention_rules loan_object_conventions)).countP
        (fun o => o.isNone)
      + (((fields.map (analyzeField convention_rules loan_object_conventions)).filterMap
          id).map Prod.snd).length = fields.length
    rw [List.length_map, length_filterMap_id, countP_isNone_add_isSome, List.length_map]
  · show pyRoundRatio
        (((fields.map (analyzeField convention_rules loan_object_conventions)).countP
          (fun o => o.isNone) : Int) * 100) (fields.length : Int)
      = pyRound (100 * (((fields.map (analyzeField convention_rules
          loan_object_conventions)).countP (fun o => o.isNone) : ℚ)) / ((fields.length : ℚ)))
    rw [pyRoundRatio_eq_pyRound _ _ (by exact_mod_cast hlen)]
    congr 1
    push_cast
    ring

/-- C2 witness at a one-record list. -/
theorem analyze_fields_partition_invariant_witness :
    ([({} : FieldRec)] ≠ []) ∧
    (∃ r, analyze_fields (PyInput.list [({} : FieldRec)]) = .ok r ∧
      r.compliant_field_count + r.violations.length = r.total_field_count ∧
      r.total_field_count = [({} : FieldRec)].length ∧
      r.compliance_percentage = pyRound
        (100 * (r.compliant_field_count : ℚ) / (r.total_field_count : ℚ))) :=
  ⟨by simp, analyze_fields_partition_invariant [{}] (by simp)⟩

/-- With a positive total, the security score is the clamped rounding of the
exact value of the source formula 100 - (flagged/total)*100*0.3 - 5*high -
2*medium. -/
theorem calculate_security_score_eq (w t hc mc : Nat) (ht : 0 < t) :
    calculate_security_score w t hc mc
      = max 0 (min 100 (pyRound ((100 : ℚ)
          - ((w : ℚ) / (t : ℚ)) * 100 * (3/10) - 5 * (hc : ℚ) - 2 * (mc : ℚ)))) := by
  unfold calculate_security_score
  rw [if_pos ht]
  have htQ : ((t : Int) : ℚ) ≠ 0 := by
    have : (0 : Int) < (t : Int) := by exact_mod_cast ht
    exact_mod_cast this.ne'
  rw [pyRoundRatio_eq_pyRound _ _ (by exact_mod_cast ht)]
  congr 2
  push_cast
  field_simp
  ring_nf

theorem calculate_security_score_bounds (w t hc mc : Nat) :
    0 ≤ calculate_security_score w t hc mc ∧ calculate_security_score w t hc mc ≤ 100 := by
  unfold calculate_security_score
  split <;>
  exact ⟨le_max_left 0 _, max_le (by norm_num) (min_le_left _ _)⟩

/-- C3: on every accepted input, the security score of the validation-rule
and trigger analyses equals 100 minus (flagged/total)*100*0.3, minus 5 per
High-severity flagged record, minus 2 per Medium-severity flagged record,
rounded and clamped to the 0..100 range; moreover the scoring function stays
within 0..100 on all inputs whatsoever, including a fully High-severity
flagged population. -/
theorem security_score_formula :
    (∀ rules : List VRRecord, rules ≠ [] →
      ∃ r, analyze_validation_rules (PyInput.list rules) = .ok r ∧
        r.security_score = max 0 (min 100 (pyRound ((100 : ℚ)
          - ((r.components_with_bypass : ℚ) / (r.total_components : ℚ)) * 100 * (3/10)
          - 5 * (r.by_severity_High.length : ℚ) - 2 * (r.by_severity_Medium.length : ℚ)))) ∧
        0 ≤ r.security_score ∧ r.security_score ≤ 100) ∧
    (∀ triggers : List TriggerRecord, triggers ≠ [] →
      ∃ r, analyze_apex_triggers (PyInput.list triggers) = .ok r ∧
        r.security_score = max 0 (min 100 (pyRound ((100 : ℚ)
          - ((r.components_with_bypass : ℚ) / (r.total_components : ℚ)) * 100 * (3/10)
          - 5 * (r.by_severity_High.length : ℚ) - 2 * (r.by_severity_Medium.length : ℚ)))) ∧
        0 ≤ r.security_score ∧ r.security_score ≤ 100) ∧
    (∀ w t hc mc : Nat,
      0 ≤ calculate_security_score w t hc mc ∧ calculate_security_score w t hc mc ≤ 100) := by
  refine ⟨?_, ?_, calculate_security_score_bounds⟩
  · intro rules h
    have hne : rules.isEmpty = false := by
      cases rules with
      | nil => exact absurd rfl h
      | cons a l => rfl
    have hlen : 0 < rules.length := List.length_pos.mpr h
    refine ⟨analyze_validation_rules_impl validation_rule_patterns rules, ?_, ?_, ?_⟩
    · unfold analyze_validation_rules
      simp only [hne, Bool.false_eq_true, if_false]
    · have hr : (analyze_validation_rules_impl validation_rule_patterns rules).security_score
          = calculate_security_score
            (analyze_validation_rules_impl validation_rule_patterns rules).components_with_bypass
            (analyze_validation_rules_impl validation_rule_patterns rules).total_components
            (analyze_validation_rules_impl validation_rule_patterns rules).by_severity_High.length
            (analyze_validation_rules_impl validation_rule_patterns rules).by_severity_Medium.length := rfl
      rw [hr]
      exact calculate_security_score_eq _ _ _ _ hlen
    · have hr : (analyze_validation_rules_impl validation_rule_patterns rules).security_score
          = calculate_security_score
            (analyze_validation_rules_impl validation_rule_patterns rules).components_with_bypass
            (analyze_validation_rules_impl validation_rule_patterns rules).total_components
            (analyze_validation_rules_impl validation_rule_patterns rules).by_severity_High.length
            (analyze_validation_rules_impl validation_rule_patterns rules).by_severity_Medium.length := rfl
      rw [hr]
      exact calculate_security_score_bounds _ _ _ _
  · intro triggers h
    have hne : triggers.isEmpty = false := by
      cases triggers with
      | nil => exact absurd rfl h
      | cons a l => rfl
    have hlen : 0 < triggers.length := List.length_pos.mpr h
    refine ⟨analyze_apex_triggers_impl apex_trigger_patterns triggers, ?_, ?_, ?_⟩
    · unfold analyze_apex_triggers
      simp only [hne, Bool.false_eq_true, if_false]
    · have hr : (analyze_apex_triggers_impl apex_trigger_patterns triggers).security_score
          = calculate_security_score
            (analyze_apex_triggers_impl apex_trigger_patterns triggers).components_with_bypass
            (analyze_apex_triggers_impl apex_trigger_patterns triggers).total_components
            (analyze_apex_triggers_impl apex_trigger_patterns triggers).by_severity_High.length
            (analyze_apex_triggers_impl apex_trigger_patterns triggers).by_severity_Medium.length := rfl
      rw [hr]
      exact calculate_security_score_eq _ _ _ _ hlen
    · have hr : (analyze_apex_triggers_impl apex_trigger_patterns triggers).security_score
          = calculate_security_score
            (analyze_apex_triggers_impl apex_trigger_patterns triggers).components_with_bypass
            (analyze_apex_triggers_impl apex_trigger_patterns triggers).total_components
            (analyze_apex_triggers_impl apex_trigger_patterns triggers).by_severity_High.length
            (analyze_apex_triggers_impl apex_trigger_patterns triggers).by_severity_Medium.length := rfl
      rw [hr]
      exact calculate_security_score_bounds _ _ _ _

/-- C3 witness at a one-record validation-rule list. -/
theorem security_score_formula_witness :
    ([({} : VRRecord)] ≠ []) ∧
    (∃ r, analyze_validation_rules (PyInput.list [({} : VRRecord)]) = .ok r ∧
      r.security_score = max 0 (min 100 (pyRound ((100 : ℚ)
        - ((r.components_with_bypass : ℚ) / (r.total_components : ℚ)) * 100 * (3/10)
        - 5 * (r.by_severity_High.length : ℚ) - 2 * (r.by_severity_Medium.length : ℚ)))) ∧
      0 ≤ r.security_score ∧ r.security_score ≤ 100) :=
  ⟨by simp, security_score_formula.1 [{}] (by simp)⟩

theorem overallWeightedSum2_cast (n v t : Option Int) :
    ((overallWeightedSum2 n v t : ℚ)) = 2 * overallWeightedSum n v t := by
  rcases n with _ | a <;> rcases v with _ | b <;> rcases t with _ | c <;>
    simp only [overallWeightedSum2, overallWeightedSum] <;>
    push_cast <;>
    ring

theorem overallTotalWeight2_cast (n v t : Option Int) :
    ((overallTotalWeight2 n v t : ℚ)) = 2 * overallTotalWeight n v t := by
  rcases n with _ | a <;> rcases v with _ | b <;> rcases t with _ | c <;>
    simp only [overallTotalWeight2, overallTotalWeight, Option.isSome_none,
      Option.isSome_some, if_true, if_false, Bool.false_eq_true] <;>
    push_cast <;>
    ring

/-- The integer ratio inside calculate_overall_score has the exact value of
the weighted average of the present domain scores. -/
theorem overall_ratio_eq (n v t : Option Int) :
    ((overallWeightedSum2 n v t : ℚ)) / ((overallTotalWeight2 n v t : ℚ))
      = overallWeightedSum n v t / overallTotalWeight n v t := by
  rw [overallWeightedSum2_cast, overallTotalWeight2_cast,
    mul_div_mul_left _ _ (two_ne_zero)]

theorem overallTotalWeight2_pos (n v t : Option Int)
    (h : n.isSome ∨ v.isSome ∨ t.isSome) : 0 < overallTotalWeight2 n v t := by
  rcases n with _ | a <;> rcases v with _ | b <;> rcases t with _ | c <;>
    simp_all [overallTotalWeight2]

/-- C7: the overall score is the rounded weighted average of whichever
domain scores are present (naming weight 1, validation weight 1.5, triggers
weight 1.5); the rating follows the bands at least 90 Excellent, at least 75
Good, at least 60 Fair, at least 40 Poor, else Critical; with no domain the
score is 0 with rating N/A; and a report built from only a validation score
of 40 scores 40 with rating Poor. -/
theorem overall_score_weighted_average :
    calculate_overall_score none none none
      = { score := 0, rating := litNA, component_scores := none } ∧
    (∀ n v t : Option Int, (n.isSome ∨ v.isSome ∨ t.isSome) →
      (calculate_overall_score n v t).score
          = pyRound (overallWeightedSum n v t / overallTotalWeight n v t) ∧
      (calculate_overall_score n v t).rating
          = ratingBand ((calculate_overall_score n v t).score)) ∧
    calculate_overall_score none (some 40) none
      = { score := 40, rating := litPoor, component_scores := some (0, 40, 0) } := by
  refine ⟨rfl, ?_, by rfl⟩
  intro n v t h
  have hcond : (n.isNone && v.isNone && t.isNone) = false := by
    rcases n with _ | a <;> rcases v with _ | b <;> rcases t with _ | c <;> simp_all
  have hscore : (calculate_overall_score n v t).score
      = pyRoundRatio (overallWeightedSum2 n v t) (overallTotalWeight2 n v t) := by
    unfold calculate_overall_score
    simp only [hcond, Bool.false_eq_true, if_false]
  have hrating : (calculate_overall_score n v t).rating
      = ratingBand ((calculate_overall_score n v t).score) := by
    unfold calculate_overall_score
    simp only [hcond, Bool.false_eq_true, if_false]
  refine ⟨?_, hrating⟩
  rw [hscore, pyRoundRatio_eq_pyRound _ _ (overallTotalWeight2_pos n v t h),
    overall_ratio_eq]

/-- C7 witness at a naming-only report. -/
theorem overall_score_weighted_average_witness :
    ((some (80 : Int)).isSome ∨ (none : Option Int).isSome ∨ (none : Option Int).isSome) ∧
    ((calculate_overall_score (some 80) none none).score
        = pyRound (overallWeightedSum (some 80) none none
            / overallTotalWeight (some 80) none none) ∧
      (calculate_overall_score (some 80) none none).rating
        = ratingBand ((calculate_overall_score (some 80) none none).score)) :=
  ⟨Or.inl rfl, overall_score_weighted_average.2.1 (some 80) none none (Or.inl rfl)⟩

/-- C8: each analyzer raises exactly on a missing, non-list or empty input,
and otherwise returns a result; the only raised error is the invalid-input
one. -/
theorem invalid_input_error_iff :
    (∀ inp : PyInput FieldRec,
      ((∃ e, analyze_fields inp = .error e) ↔ invalidShape inp) ∧
      (analyze_fields inp = .error .invalidInput ∨ ∃ r, analyze_fields inp = .ok r)) ∧
    (∀ inp : PyInput VRRecord,
      ((∃ e, analyze_validation_rules inp = .error e) ↔ invalidShape inp) ∧
      (analyze_validation_rules inp = .error .invalidInput
        ∨ ∃ r, analyze_validation_rules inp = .ok r)) ∧
    (∀ inp : PyInput TriggerRecord,
      ((∃ e, analyze_apex_triggers inp = .error e) ↔ invalidShape inp) ∧
      (analyze_apex_triggers inp = .error .invalidInput
        ∨ ∃ r, analyze_apex_triggers inp = .ok r)) := by
  refine ⟨?_, ?_, ?_⟩
  · intro inp
    cases inp with
    | none => exact ⟨⟨fun _ => Or.inl rfl, fun _ => ⟨.invalidInput, rfl⟩⟩, Or.inl rfl⟩
    | notList =>
      exact ⟨⟨fun _ => Or.inr (Or.inl rfl), fun _ => ⟨.invalidInput, rfl⟩⟩, Or.inl rfl⟩
    | list fields =>
      cases fields with
      | nil =>
        exact ⟨⟨fun _ => Or.inr (Or.inr rfl), fun _ => ⟨.invalidInput, rfl⟩⟩, Or.inl rfl⟩
      | cons f fs =>
        have heq : analyze_fields (PyInput.list (f :: fs))
            = .ok (buildNamingResult (f :: fs).length
                ((f :: fs).map (analyzeField convention_rules loan_object_conventions))) :=
          analyze_fields_impl_eq (f :: fs)
        refine ⟨⟨?_, ?_⟩, Or.inr ⟨_, heq⟩⟩
        · rintro ⟨e, he⟩
          rw [heq] at he
          exact absurd he (by simp)
        · intro hshape
          rcases hshape with h | h | h <;> simp at h
  · intro inp
    cases inp with
    | none => exact ⟨⟨fun _ => Or.inl rfl, fun _ => ⟨.invalidInput, rfl⟩⟩, Or.inl rfl⟩
    | notList =>
      exact ⟨⟨fun _ => Or.inr (Or.inl rfl), fun _ => ⟨.invalidInput, rfl⟩⟩, Or.inl rfl⟩
    | list rules =>
      cases rules with
      | nil =>
        exact ⟨⟨fun _ => Or.inr (Or.inr rfl), fun _ => ⟨.invalidInput, rfl⟩⟩, Or.inl rfl⟩
      | cons r rs =>
        refine ⟨⟨?_, ?_⟩, Or.inr ⟨_, rfl⟩⟩
        · rintro ⟨e, he⟩
          exact absurd he (by simp [analyze_validation_rules])
        · intro hshape
          rcases hshape with h | h | h <;> simp at h
  · intro inp
    cases inp with
    | none => exact ⟨⟨fun _ => Or.inl rfl, fun _ => ⟨.invalidInput, rfl⟩⟩, Or.inl rfl⟩
    | notList =>
      exact ⟨⟨fun _ => Or.inr (Or.inl rfl), fun _ => ⟨.invalidInput, rfl⟩⟩, Or.inl rfl⟩
    | list triggers =>
      cases triggers with
      | nil =>
        exact ⟨⟨fun _ => Or.inr (Or.inr rfl), fun _ => ⟨.invalidInput, rfl⟩⟩, Or.inl rfl⟩
      | cons r rs =>
        refine ⟨⟨?_, ?_⟩, Or.inr ⟨_, rfl⟩⟩
        · rintro ⟨e, he⟩
          exact absurd he (by simp [analyze_apex_triggers])
        · intro hshape
          rcases hshape with h | h | h <;> simp at h

theorem vrActive_fill (r : VRRecord) :
    (fillVRDefaults r).active.getD false = r.active.getD false := by
  simp [fillVRDefaults]

theorem vrDescription_fill (r : VRRecord) :
    (fillVRDefaults r).description.getD [] = r.description.getD [] := by
  simp [fillVRDefaults]

theorem tgActive_fill (r : TriggerRecord) :
    (fillTriggerDefaults r).active.getD false = r.active.getD false := by
  simp [fillTriggerDefaults]

/-- C9: the analyzers never raise on well-formed records with missing keys.
The loop body of analyze_fields, including the recommendation step that
indexes the api name at position zero, always returns a value (the lowercase
violation that reaches that indexing forces a non-empty name), and for each
of the three analyzers, filling every missing string key with the empty
string and every missing boolean key with false leaves the analysis result
unchanged - missing keys behave exactly as those defaults. -/
theorem malformed_records_degrade_gracefully :
    (∀ f : FieldRec, analyzeFieldE convention_rules loan_object_conventions f
        = .ok (analyzeField convention_rules loan_object_conventions f)) ∧
    (∀ (crules : List ConventionRule) (loan : LoanConventions) (fields : List FieldRec),
      analyze_fields_impl crules loan (fields.map fillFieldDefaults)
        = analyze_fields_impl crules loan fields) ∧
    (∀ (pats : List VRPattern) (rules : List VRRecord),
      analyze_validation_rules_impl pats (rules.map fillVRDefaults)
        = analyze_validation_rules_impl pats rules) ∧
    (∀ (pats : List VRPattern) (triggers : List TriggerRecord),
      analyze_apex_triggers_impl pats (triggers.map fillTriggerDefaults)
        = analyze_apex_triggers_impl pats triggers) := by
  refine ⟨analyzeFieldE_eq_ok, ?_, ?_, ?_⟩
  · intro crules loan fields
    have h1 : mapExcept (analyzeFieldE crules loan) (fields.map fillFieldDefaults)
        = mapExcept (analyzeFieldE crules loan) fields := by
      rw [mapExcept_map]
      exact mapExcept_congr _ _ (fun f => analyzeFieldE_fill crules loan f) fields
    unfold analyze_fields_impl
    rw [h1, List.length_map]
  · intro pats rules
    unfold analyze_validation_rules_impl
    simp only [List.countP_map, List.filterMap_map, List.length_map, Function.comp_def,
      vrFindingsOf_fill, vrNameOf_fill, vrFormulaOf_fill, vrActive_fill,
      vrDescription_fill]
  · intro pats triggers
    unfold analyze_apex_triggers_impl
    simp only [List.countP_map, List.filterMap_map, List.length_map, Function.comp_def,
      tgFindingsOf_fill, tgNameOf_fill, tgContentOf_fill, tgActive_fill]

end SalesforceAnalyser
